import Mathlib

/-!
# TerraView — verification of the core spec against the source

Shallow embedding of the color math, flag-palette extraction, country-name
matching, reference-data cache and enrichment scheduler of the TerraView
repository (`src/utils/flagColorExtractor` / `colorUtils.js`,
`src/utils/countryMatcher` / `populationFormatter.js`,
`src/components/GlobeView.jsx`), together with proofs of the spec's claims.

JS numbers are modelled as exact rationals (`ℚ`); all inputs relevant to the
claims are exactly representable as binary64 floats, so rational arithmetic
agrees with the JS evaluation on them.  Strings are modelled as Lean
`String`s, manipulated through their underlying `List Char`.  Case mapping
(`toUpperCase` / `toLowerCase`) is modelled on the ASCII range, which covers
every string these claims touch.
-/

set_option maxRecDepth 40000

namespace TerraView

/-! ## Characters and strings: JS primitives used by the source -/

/-- JS whitespace class (`\s`, `String.prototype.trim`): space, the control
whitespace range U+0009–U+000D, and the Unicode space separators. -/
def jsIsWs (c : Char) : Bool :=
  c.toNat = 32 || (9 ≤ c.toNat && c.toNat ≤ 13) || c.toNat = 0xa0 || c.toNat = 0x1680 ||
  (0x2000 ≤ c.toNat && c.toNat ≤ 0x200a) || c.toNat = 0x2028 || c.toNat = 0x2029 ||
  c.toNat = 0x202f || c.toNat = 0x205f || c.toNat = 0x3000 || c.toNat = 0xfeff

/-- JS word-character class `\w` = `[A-Za-z0-9_]`. -/
def jsIsWord (c : Char) : Bool :=
  (97 ≤ c.toNat && c.toNat ≤ 122) || (65 ≤ c.toNat && c.toNat ≤ 90) ||
  (48 ≤ c.toNat && c.toNat ≤ 57) || c.toNat = 95

/-- `String.prototype.toUpperCase` on the ASCII range. -/
def jsToUpperChar (c : Char) : Char :=
  if 97 ≤ c.toNat && c.toNat ≤ 122 then Char.ofNat (c.toNat - 32) else c

/-- `String.prototype.toLowerCase` on the ASCII range. -/
def jsToLowerChar (c : Char) : Char :=
  if 65 ≤ c.toNat && c.toNat ≤ 90 then Char.ofNat (c.toNat + 32) else c

/-- `String.prototype.trim`: drop leading and trailing whitespace. -/
def jsTrim (l : List Char) : List Char :=
  ((l.dropWhile jsIsWs).reverse.dropWhile jsIsWs).reverse

/-- `hex.replace('#', '')` with a string pattern replaces only the first
occurrence. -/
def removeFirstHash : List Char → List Char
  | [] => []
  | c :: rest => if c = '#' then rest else c :: removeFirstHash rest

/-- Value of a hex digit as accepted by `parseInt(·, 16)` (both cases). -/
def hexDigitVal (c : Char) : Option Nat :=
  if 48 ≤ c.toNat && c.toNat ≤ 57 then some (c.toNat - 48)
  else if 97 ≤ c.toNat && c.toNat ≤ 102 then some (c.toNat - 87)
  else if 65 ≤ c.toNat && c.toNat ≤ 70 then some (c.toNat - 55)
  else none

/-- Accumulating loop of `parseInt(·, 16)`: consume hex digits until the
first non-digit. -/
def parseHexGo (acc : Nat) : List Char → Nat
  | [] => acc
  | c :: rest =>
    match hexDigitVal c with
    | some d => parseHexGo (acc * 16 + d) rest
    | none => acc

/-- `parseInt(s, 16)` on an already-trimmed string: the longest hex-digit
prefix is parsed; no valid prefix gives `NaN`, modelled as `none`.
(Sign prefixes are not modelled; no claim reaches them.) -/
def parseHex : List Char → Option Nat
  | [] => none
  | c :: rest =>
    match hexDigitVal c with
    | some d => some (parseHexGo d rest)
    | none => none

/-- JS `Number.prototype.toString(16)` digit character (lowercase). -/
def hexDigitChar (d : Nat) : Char :=
  if d < 10 then Char.ofNat (48 + d) else Char.ofNat (87 + d)

/-- Hex digits of a natural number, most significant first
(`Number.prototype.toString(16)` restricted to naturals). -/
def natHex (n : Nat) : List Char :=
  if _h : n < 16 then [hexDigitChar n]
  else natHex (n / 16) ++ [hexDigitChar (n % 16)]
  decreasing_by exact Nat.div_lt_self (by omega) (by omega)

/-- Hex digits of the fractional part of a nonnegative rational, as printed
by `Number.prototype.toString(16)`; terminates (fuel unused past that point)
on the dyadic rationals that binary64 floats are. -/
def fracHexDigits : Nat → ℚ → List Char
  | 0, _ => []
  | fuel + 1, q =>
    if q = 0 then []
    else
      let q16 := q * 16
      hexDigitChar ⌊q16⌋.toNat :: fracHexDigits fuel (q16 - ⌊q16⌋)

/-- `Number.prototype.toString(16)` for a nonnegative number: integer hex
digits, then `.` and the fractional hex digits when the number is not an
integer. -/
def qToString16 (v : ℚ) : List Char :=
  if v = ⌊v⌋ then natHex ⌊v⌋.toNat
  else natHex ⌊v⌋.toNat ++ '.' :: fracHexDigits 64 (v - ⌊v⌋)

/-- `String.prototype.padStart(2, '0')`. -/
def padStart2 (l : List Char) : List Char :=
  List.replicate (2 - l.length) '0' ++ l

/-! ## ColorMath (`src/utils/flagColorExtractor.js`) -/

/-- An RGB color object `{r, g, b}` as built by `hexToRgb` and consumed by
`rgbToHex`; channels are JS numbers (exact rationals here). -/
structure Rgb where
  r : ℚ
  g : ℚ
  b : ℚ
deriving Repr, DecidableEq

/-- `const clamp255 = v => Math.max(0, Math.min(255, v))`. -/
def clamp255 (v : ℚ) : ℚ := max 0 (min 255 v)

/-- `hexToRgb`: strip the first `#`, trim, require exactly 6 characters,
`parseInt(clean, 16)`, then split with `>> 16 & 0xff` etc.  A length-6
string with no hex prefix parses to `NaN`, and in JS `NaN >> 16 & 0xff`
is `0`, so such a string yields `{r: 0, g: 0, b: 0}` rather than `null`. -/
def hexToRgb (hex : String) : Option Rgb :=
  let clean := jsTrim (removeFirstHash hex.data)
  if clean.length ≠ 6 then none
  else
    match parseHex clean with
    | none => some ⟨0, 0, 0⟩
    | some num => some ⟨(num >>> 16 % 256 : ℕ), (num >>> 8 % 256 : ℕ), (num % 256 : ℕ)⟩

/-- `toHex` inside `rgbToHex`:
`v => clamp255(v).toString(16).padStart(2, '0')`. -/
def toHexComp (v : ℚ) : List Char :=
  padStart2 (qToString16 (clamp255 v))

/-- `rgbToHex`: `` `#${toHex(r)}${toHex(g)}${toHex(b)}`.toUpperCase() ``. -/
def rgbToHex (c : Rgb) : String :=
  ⟨('#' :: (toHexComp c.r ++ toHexComp c.g ++ toHexComp c.b)).map jsToUpperChar⟩

/-- `lighten(color, amount)`: blend each channel toward 255; an unparseable
color is returned unchanged. -/
def lighten (color : String) (amount : ℚ) : String :=
  match hexToRgb color with
  | none => color
  | some rgb =>
    rgbToHex ⟨rgb.r + (255 - rgb.r) * amount,
              rgb.g + (255 - rgb.g) * amount,
              rgb.b + (255 - rgb.b) * amount⟩

/-- `darken(color, amount)`: scale each channel toward 0; an unparseable
color is returned unchanged. -/
def darken (color : String) (amount : ℚ) : String :=
  match hexToRgb color with
  | none => color
  | some rgb =>
    rgbToHex ⟨rgb.r * (1 - amount), rgb.g * (1 - amount), rgb.b * (1 - amount)⟩

/-- `mix(colorA, colorB, ratio)`: channel-wise linear interpolation with the
ratio clamped to [0,1]; if either color fails to parse the source returns
`colorA || colorB` (first argument, or the second when the first is the
empty string / absent). -/
def mix (colorA colorB : String) (ratio : ℚ) : String :=
  match hexToRgb colorA, hexToRgb colorB with
  | some a, some b =>
    let t := max 0 (min 1 ratio)
    rgbToHex ⟨a.r * (1 - t) + b.r * t, a.g * (1 - t) + b.g * t, a.b * (1 - t) + b.b * t⟩
  | _, _ => if colorA ≠ "" then colorA else colorB

/-- `getLuma({r, g, b}) = 0.2126 r + 0.7152 g + 0.0722 b`. -/
def getLuma (c : Rgb) : ℚ :=
  (2126 / 10000 : ℚ) * c.r + (7152 / 10000 : ℚ) * c.g + (722 / 10000 : ℚ) * c.b

/-- `getSaturation({r, g, b}) = (max - min) / max`, `0` when `max = 0`. -/
def getSaturation (c : Rgb) : ℚ :=
  let mx := max c.r (max c.g c.b)
  let mn := min c.r (min c.g c.b)
  if mx = 0 then 0 else (mx - mn) / mx

/-- `quantize({r, g, b}, step)`: snap each channel to the center of its
`step`-wide bucket, `Math.floor(v / step) * step + step / 2`. -/
def quantize (c : Rgb) (step : ℚ) : Rgb :=
  ⟨(⌊c.r / step⌋ : ℚ) * step + step / 2,
   (⌊c.g / step⌋ : ℚ) * step + step / 2,
   (⌊c.b / step⌋ : ℚ) * step + step / 2⟩

/-- Squared Euclidean color distance.  The source computes
`Math.sqrt(dr² + dg² + db²)` and only ever compares it against `40`; for
the integer-channel colors involved, `Math.sqrt(d) > 40 ↔ d > 1600`
(`√1600 = 40` exactly in binary64), so the model works with the square. -/
def colorDistanceSq (a b : Rgb) : ℚ :=
  (a.r - b.r) * (a.r - b.r) + (a.g - b.g) * (a.g - b.g) + (a.b - b.b) * (a.b - b.b)

/-- Whether a character is a hex digit (either case). -/
def isHexDigit (c : Char) : Bool := (hexDigitVal c).isSome

/-- A well-formed hex color string: `#` followed by exactly six hex
digits. -/
def wellFormedHexB (s : String) : Bool :=
  match s.data with
  | '#' :: ds => ds.length == 6 && ds.all isHexDigit
  | _ => false

/-! ## FlagPaletteExtractor (`src/utils/flagColorExtractor.js`) -/

/-- One sampled canvas pixel: the four bytes `data[i..i+3]` read by
`sampleImageColors` from `ctx.getImageData`. -/
structure Rgba where
  r : ℕ
  g : ℕ
  b : ℕ
  a : ℕ
deriving Repr, DecidableEq

/-- One step of the bucket histogram
`buckets.set(key, (buckets.get(key) || 0) + 1)`: a JS `Map` keeps first
insertion order, so an existing key is bumped in place and a new key is
appended. -/
def bumpBucket : List (Rgb × ℕ) → Rgb → List (Rgb × ℕ)
  | [], k => [(k, 1)]
  | (k', n) :: rest, k =>
    if k' = k then (k', n + 1) :: rest else (k', n) :: bumpBucket rest k

/-- Stable insertion for the descending-by-count sort
(`.sort((a, b) => b[1] - a[1])`; JS `Array.prototype.sort` is stable, so
ties keep encounter order). -/
def insertByCount (x : Rgb × ℕ) : List (Rgb × ℕ) → List (Rgb × ℕ)
  | [] => [x]
  | y :: rest => if y.2 > x.2 then y :: insertByCount x rest else x :: y :: rest

/-- Stable sort of the bucket list, most frequent first. -/
def sortByCountDesc (l : List (Rgb × ℕ)) : List (Rgb × ℕ) :=
  l.foldr insertByCount []

/-- `sampleImageColors`, from the pixel bytes onward (the canvas downscale
that produces the bytes is the host's rasterizer): drop pixels with
`a < 200`, saturation `< 0.15`, or luma outside `[20, 235]`; quantize with
step 32; count per bucket; rank by frequency; keep the top 6. -/
def sampleImageColors (pixels : List Rgba) : List Rgb :=
  let buckets := pixels.foldl (fun acc p =>
    if p.a < 200 then acc
    else
      let rgb : Rgb := ⟨p.r, p.g, p.b⟩
      if getSaturation rgb < 15 / 100 then acc
      else
        let luma := getLuma rgb
        if luma < 20 ∨ luma > 235 then acc
        else bumpBucket acc (quantize rgb 32)) []
  (((sortByCountDesc buckets).map Prod.fst).take 6)

/-- `{primary, secondary}` as returned (and cached) by `extractFlagColors`:
hex strings, `secondary` possibly `null`. -/
structure FlagResult where
  primary : String
  secondary : Option String
deriving Repr, DecidableEq

/-- The palette cache `flagColorCache` (a JS `Map` keyed by flag URL). -/
abbrev FlagCache := List (String × FlagResult)

/-- `flagColorCache.get`/`has`. -/
def cacheGet (cache : FlagCache) (k : String) : Option FlagResult :=
  (cache.find? (fun e => e.1 == k)).map (·.2)

/-- `flagColorCache.set`: overwrite an existing key in place, else append. -/
def cacheSet : FlagCache → String → FlagResult → FlagCache
  | [], k, v => [(k, v)]
  | (k', v') :: rest, k, v =>
    if k' = k then (k, v) :: rest else (k', v') :: cacheSet rest k v

/-- `const primary = colors[0] || hexToRgb(fallbackColor) || {r:136, g:136, b:136}`. -/
def pickPrimary (colors : List Rgb) (fallbackColor : String) : Rgb :=
  match colors with
  | c :: _ => c
  | [] =>
    match hexToRgb fallbackColor with
    | some rgb => rgb
    | none => ⟨136, 136, 136⟩

/-- `const secondary = colors.find(c => colorDistance(c, primary) > 40) || null`
(worked with the squared distance, `√d > 40 ↔ d > 1600`). -/
def pickSecondary (colors : List Rgb) (primary : Rgb) : Option Rgb :=
  colors.find? (fun c => 1600 < colorDistanceSq c primary)

/-- `extractFlagColors(flagUrl, fallbackColor)`, explicit about the two
effects of the source: the module-level `flagColorCache` is threaded as
state, and `await loadImage(flagUrl)` is an oracle `load` returning either
the sampled pixel bytes or a load failure (`img.onerror`, rejected by
`loadImage` and caught by the `try`/`catch`).  `flagUrl = ""` models an
absent (`undefined`/`null`/empty) image reference, which in JS is falsy.
Returns the result, the updated cache, and whether an image load was
attempted. -/
def extractFlagColors (load : String → Except Unit (List Rgba)) (cache : FlagCache)
    (flagUrl fallbackColor : String) : FlagResult × FlagCache × Bool :=
  if flagUrl = "" then (⟨fallbackColor, none⟩, cache, false)
  else
    match cacheGet cache flagUrl with
    | some r => (r, cache, false)
    | none =>
      match load flagUrl with
      | .error _ =>
        let result : FlagResult := ⟨fallbackColor, none⟩
        (result, cacheSet cache flagUrl result, true)
      | .ok pixels =>
        let colors := sampleImageColors pixels
        let primary := pickPrimary colors fallbackColor
        let secondary := pickSecondary colors primary
        let result : FlagResult := ⟨rgbToHex primary, secondary.map rgbToHex⟩
        (result, cacheSet cache flagUrl result, true)

/-! ## PaletteBuilder (`getCountryPalette` in `src/utils/flagColorExtractor.js`) -/

/-- `CONTINENT_BASE_COLORS[region] || CONTINENT_BASE_COLORS.default`
(the table at the top of `flagColorExtractor.js`). -/
def continentBaseColor : Option String → String
  | some "Africa" => "#F4CE29"
  | some "Americas" => "#32A189"
  | some "Asia" => "#FF6B6B"
  | some "Europe" => "#8BBED8"
  | some "Oceania" => "#C77442"
  | some "Antarctic" => "#7C94A4"
  | _ => "#B1C4BB"

/-- The country argument of `getCountryPalette`: only the fields the
function reads (`region` and the flag URL alternatives). -/
structure CountryRef where
  region : Option String
  flag : Option String
  flagUrl : Option String
  flagsSvg : Option String
  flagsPng : Option String

/-- The `DisplayPalette` built by `getCountryPalette`. -/
structure Palette where
  base : String
  accent : String
  accentLight : String
  accentDark : String
  muted : String
  secondary : Option String
deriving Repr, DecidableEq

/-- `country?.flag || country?.flagUrl || country?.flags?.svg ||
country?.flags?.png`: first truthy (present and non-empty) alternative,
`""` when none. -/
def resolveFlagUrl (country : CountryRef) : String :=
  (([country.flag, country.flagUrl, country.flagsSvg, country.flagsPng].map
      (fun o => o.getD "")).find? (fun s => s != "")).getD ""

/-- `getCountryPalette(country, options)`: resolve the base from the
continent table (overridable), extract the flag palette with
`fallbackAccent` as the extraction fallback, then derive the display
palette.  `options.baseColor` / `options.fallbackAccent` are `none` when
omitted (JS destructuring defaults). -/
def getCountryPalette (load : String → Except Unit (List Rgba)) (cache : FlagCache)
    (country : CountryRef) (baseColorOpt fallbackAccentOpt : Option String) :
    Palette × FlagCache :=
  let baseColor := baseColorOpt.getD (continentBaseColor country.region)
  let fallbackAccent := fallbackAccentOpt.getD "#C77442"
  let flagUrl := resolveFlagUrl country
  let er := extractFlagColors load cache flagUrl fallbackAccent
  let accent := if er.1.primary != "" then er.1.primary else fallbackAccent
  ({ base := baseColor
     accent := accent
     accentLight := lighten accent (18 / 100)
     accentDark := darken accent (18 / 100)
     muted := mix baseColor accent (35 / 100)
     secondary := er.1.secondary }, er.2.1)

/-! ## CountryNameMatcher (`src/utils/countryMatcher.js`) -/

/-- `toLowerCase` over a whole string (ASCII model). -/
def jsLower (s : String) : String := ⟨s.data.map jsToLowerChar⟩

/-- `toUpperCase` over a whole string (ASCII model). -/
def jsUpper (s : String) : String := ⟨s.data.map jsToUpperChar⟩

/-- `a.includes(b)`: `b` occurs as a contiguous substring of `a`. -/
def jsIncludes (a b : String) : Bool := decide (b.data <:+: a.data)

/-- `COUNTRY_NAME_MAP`, the direct-override table, in source order. -/
def COUNTRY_NAME_MAP : List (String × String) :=
  [("United States", "United States of America"),
   ("United States of America", "United States of America"),
   ("USA", "United States of America"),
   ("US", "United States of America"),
   ("Russia", "Russian Federation"),
   ("Russian Federation", "Russian Federation"),
   ("UK", "United Kingdom"),
   ("United Kingdom", "United Kingdom"),
   ("Great Britain", "United Kingdom"),
   ("South Korea", "Korea, Republic of"),
   ("North Korea", "Korea, Democratic People\x27s Republic of"),
   ("Czech Republic", "Czechia"),
   ("Czechia", "Czechia"),
   ("Myanmar", "Myanmar"),
   ("Burma", "Myanmar"),
   ("Ivory Coast", "Côte d\x27Ivoire"),
   ("Côte d\x27Ivoire", "Côte d\x27Ivoire"),
   ("East Timor", "Timor-Leste"),
   ("Timor-Leste", "Timor-Leste"),
   ("Macedonia", "North Macedonia"),
   ("North Macedonia", "North Macedonia"),
   ("Swaziland", "Eswatini"),
   ("Eswatini", "Eswatini")]

/-- `COUNTRY_NAME_MAP[geoJsonName]` (plain object property lookup). -/
def countryNameMap (q : String) : Option String := COUNTRY_NAME_MAP.lookup q

/-- `replace(/\s+/g, ' ')`, one character at a time: the first whitespace
character of a run becomes a space, the rest of the run is dropped (the
flag records whether the previous character was whitespace). -/
def collapseWsGo : Bool → List Char → List Char
  | _, [] => []
  | prevWs, c :: rest =>
    if jsIsWs c then
      if prevWs then collapseWsGo true rest
      else ' ' :: collapseWsGo true rest
    else c :: collapseWsGo false rest

/-- `replace(/\s+/g, ' ')`: collapse every maximal whitespace run to one
space. -/
def collapseWs (l : List Char) : List Char := collapseWsGo false l

/-- `normalizeName`: lower-case, trim, strip `[^\w\s]`, collapse `\s+` to a
single space; falsy (empty/absent) input yields `""`. -/
def normalizeName (name : String) : String :=
  if name = "" then ""
  else
    ⟨collapseWs ((jsTrim (name.data.map jsToLowerChar)).filter
      (fun c => jsIsWord c || jsIsWs c))⟩

/-- A REST-Countries record as `matchCountryName` reads it: `name.common`,
`name.official`, `altSpellings` (`[]` models an absent `altSpellings`;
in JS `!undefined` skips the record and `[].some(...)` is `false`, the same
outcome). -/
structure Country where
  nameCommon : String
  nameOfficial : String
  altSpellings : List String
deriving Repr, DecidableEq

/-- `matchCountryName(geoJsonName, apiCountries)`: the five-strategy chain —
direct override, exact case-insensitive, normalized, partial containment,
alternate spellings; `null` when the query is falsy, the list is
absent/empty, or nothing matches. -/
def matchCountryName (geoJsonName : String) (apiCountries : List Country) :
    Option Country :=
  if geoJsonName = "" ∨ apiCountries = [] then none
  else
    let direct :=
      match countryNameMap geoJsonName with
      | some mapped =>
        apiCountries.find? (fun (c : Country) =>
          c.nameCommon == mapped || c.nameOfficial == mapped)
      | none => none
    match direct with
    | some c => some c
    | none =>
      let geoLower := jsLower geoJsonName
      match apiCountries.find? (fun (c : Country) =>
          jsLower c.nameCommon == geoLower || jsLower c.nameOfficial == geoLower) with
      | some c => some c
      | none =>
        let normalizedGeoName := normalizeName geoJsonName
        match apiCountries.find? (fun (c : Country) =>
            normalizeName c.nameCommon == normalizedGeoName ||
            normalizeName c.nameOfficial == normalizedGeoName) with
        | some c => some c
        | none =>
          match apiCountries.find? (fun (c : Country) =>
              let commonName := jsLower c.nameCommon
              let officialName := jsLower c.nameOfficial
              jsIncludes commonName geoLower || jsIncludes geoLower commonName ||
              jsIncludes officialName geoLower || jsIncludes geoLower officialName) with
          | some c => some c
          | none =>
            apiCountries.find? (fun (c : Country) =>
              c.altSpellings.any (fun alt => normalizeName alt == normalizedGeoName))

/-! ## ReferenceDataCache (`fetchCountryData` in `src/utils/countryMatcher.js`) -/

/-- The module-level cache of `fetchCountryData`:
`allCountriesCache` and `cacheTimestamp` (milliseconds, `null` initially). -/
structure RefCacheState where
  allCountriesCache : Option (List Country)
  cacheTimestamp : Option Int
deriving Repr, DecidableEq

/-- `CACHE_DURATION = 1000 * 60 * 30` (30 minutes). -/
def CACHE_DURATION : Int := 1000 * 60 * 30

/-- The freshness test
`allCountriesCache && cacheTimestamp && (now - cacheTimestamp) < CACHE_DURATION`
(a timestamp of `0` is falsy in JS, hence the `ts ≠ 0` conjunct). -/
def cacheFresh (st : RefCacheState) (now : Int) : Bool :=
  match st.allCountriesCache, st.cacheTimestamp with
  | some _, some ts => ts != 0 && now - ts < CACHE_DURATION
  | _, _ => false

/-- The retry loop of `fetchCountryData` (3 attempts, backoff delays elided
— they do not change the data flow).  `fetchOutcome i` is the result of
attempt `i`: the parsed country array, or `none` when `fetch`/`res.json`
threw or the response was not ok.  `attemptTime i` is `Date.now()` at the
cache update of attempt `i`.  When every attempt fails the loop ends in
`throw lastError`, modelled as `.error ()`. -/
def fetchAttempts (fetchOutcome : ℕ → Option (List Country)) (attemptTime : ℕ → Int)
    (countryName : String) :
    ℕ → ℕ → Except Unit (Option Country × RefCacheState)
  | 0, _ => .error ()
  | remaining + 1, attempt =>
    match fetchOutcome attempt with
    | some allCountries =>
      .ok (matchCountryName countryName allCountries,
           ⟨some allCountries, some (attemptTime attempt)⟩)
    | none => fetchAttempts fetchOutcome attemptTime countryName remaining (attempt + 1)

/-- `fetchCountryData(countryName)`: serve a fresh cache without fetching,
otherwise run the retry loop; the outer `catch` turns a total failure into
`return null` and leaves the module cache exactly as it was. -/
def fetchCountryData (fetchOutcome : ℕ → Option (List Country)) (attemptTime : ℕ → Int)
    (now : Int) (st : RefCacheState) (countryName : String) :
    Option Country × RefCacheState :=
  if cacheFresh st now then
    (matchCountryName countryName (st.allCountriesCache.getD []), st)
  else
    match fetchAttempts fetchOutcome attemptTime countryName 3 0 with
    | .ok r => r
    | .error _ => (none, st)

/-! ## EnrichmentScheduler (`processNext` in `src/components/GlobeView.jsx`) -/

/-- GlobeView's own `CONTINENT_BASE_COLORS` table (it differs from the one
in `flagColorExtractor.js`). -/
def continentBaseColorGlobe : Option String → String
  | some "Africa" => "#79B957"
  | some "Americas" => "#32A189"
  | some "Asia" => "#F4CE29"
  | some "Europe" => "#8BBED8"
  | some "Oceania" => "#C77442"
  | some "Antarctic" => "#7C94A4"
  | _ => "#B1C4BB"

/-- `getBaseColorForFeature(props)`: the continent chain
`props.CONTINENT || props.continent || ...` resolved to one optional value,
then the table lookup with its default — the result is always a non-empty
color string, so the `|| getCountryColor(index)` at the call site never
fires. -/
def getBaseColorForFeature (continent : Option String) : String :=
  continentBaseColorGlobe continent

/-- A GeoJSON boundary feature as the enrichment pipeline uses it:
the resolved ISO3 identity
(`feature.id || properties.ISO_A3 || properties.ADM0_A3 || properties.iso_a3`,
`none` when the whole chain is falsy), the fixed `baseColor` fallback, and
the mutable `color`. -/
structure Feature where
  iso3 : Option String
  baseColor : String
  color : String
deriving Repr, DecidableEq

/-- A raw feature before the color-initialisation loop: identity code plus
the continent tag read by `getBaseColorForFeature`. -/
structure RawFeature where
  iso3 : Option String
  continent : Option String

/-- The initialisation loop over `countries.features`:
`feature.color = baseColor; feature.baseColor = baseColor`. -/
def initFeature (rf : RawFeature) : Feature :=
  let base := getBaseColorForFeature rf.continent
  ⟨rf.iso3, base, base⟩

/-- One record of the ISO3 → `{region, flags}` lookup built by
`loadFlagLookup`. -/
structure FlagEntry where
  region : Option String
  flagsSvg : Option String
  flagsPng : Option String
deriving Repr, DecidableEq

/-- `flagMap.get(...)` on the ISO3 lookup map. -/
def flagMapGet (m : List (String × FlagEntry)) (k : String) : Option FlagEntry :=
  (m.find? (fun e => e.1 == k)).map (·.2)

/-- The per-feature body inside `processNext`'s `slice.map`: resolve the
ISO3 code (falsy code → feature untouched), look it up in the flag map
(miss → feature untouched), then
`feature.color = palette.accent || feature.baseColor` on success and
`feature.color = feature.baseColor` when palette derivation throws.
`deriv entry baseColor` is the awaited outcome of
`getCountryPalette({region, flags}, {baseColor})` — `.error` models a
rejection caught by the `try`/`catch`. -/
def processFeature (flagMap : List (String × FlagEntry))
    (deriv : FlagEntry → String → Except Unit Palette) (f : Feature) : Feature :=
  match f.iso3 with
  | none => f
  | some code =>
    if code = "" then f
    else
      match flagMapGet flagMap (jsUpper code) with
      | none => f
      | some entry =>
        match deriv entry f.baseColor with
        | .ok palette =>
          { f with color := if palette.accent != "" then palette.accent else f.baseColor }
        | .error _ => { f with color := f.baseColor }

/-- `processNext`: take the next slice of `concurrency = 6` features,
settle every member (success or degraded fallback), publish once
(`globe.polygonCapColor(...)`), and continue via `setTimeout` while
features remain.  Returns the features after the run together with the
number of publishes; note a run over an empty feature list still publishes
once, exactly as the source does. -/
def processNextRun (flagMap : List (String × FlagEntry))
    (deriv : FlagEntry → String → Except Unit Palette)
    (features : List Feature) : List Feature × ℕ :=
  let slice := (features.take 6).map (processFeature flagMap deriv)
  if h : features.length ≤ 6 then (slice, 1)
  else
    let rest := processNextRun flagMap deriv (features.drop 6)
    (slice ++ rest.1, rest.2 + 1)
  termination_by features.length
  decreasing_by
    simp only [List.length_drop]
    omega


/-- The whole enrichment pass: initialise colors, then run `processNext`
to completion. -/
def enrichFeatures (flagMap : List (String × FlagEntry))
    (deriv : FlagEntry → String → Except Unit Palette) (raw : List RawFeature) :
    List Feature × ℕ :=
  processNextRun flagMap deriv (raw.map initFeature)

/-! ## Two overlapping `fetchCountryData` calls (for the single-flight claim)

`fetchCountryData` has no in-flight-promise guard, so overlap is modelled
as a small interleaving system of two callers over the shared module cache.
In the JS event loop a call runs synchronously from entry through the cache
check up to issuing `await fetch(...)`, so check-and-issue is one atomic
step; the fetch completion and cache write happen in a later turn.  The
success path (first attempt succeeds) suffices for the claims. -/

/-- Program counter of one `fetchCountryData` caller. -/
inductive CallerPc where
  | start
  | fetching
  | done
deriving Repr, DecidableEq

/-- Shared state of two concurrent `fetchCountryData` callers:
whether the module cache currently holds a fresh reference set, each
caller's position, and how many network fetches each has issued. -/
structure ConcState where
  cacheLoaded : Bool
  pc1 : CallerPc
  pc2 : CallerPc
  fetches1 : ℕ
  fetches2 : ℕ
deriving Repr, DecidableEq

/-- Interleaving steps of the two callers.  A caller at `start` checks the
cache: a fresh cache returns without network access, otherwise it issues
its own `fetch` (there is no shared pending operation to join).  A caller
at `fetching` completes, writing the cache. -/
inductive ConcStep : ConcState → ConcState → Prop where
  | check1Hit (s : ConcState) : s.pc1 = .start → s.cacheLoaded = true →
      ConcStep s { s with pc1 := .done }
  | check1Miss (s : ConcState) : s.pc1 = .start → s.cacheLoaded = false →
      ConcStep s { s with pc1 := .fetching, fetches1 := s.fetches1 + 1 }
  | complete1 (s : ConcState) : s.pc1 = .fetching →
      ConcStep s { s with pc1 := .done, cacheLoaded := true }
  | check2Hit (s : ConcState) : s.pc2 = .start → s.cacheLoaded = true →
      ConcStep s { s with pc2 := .done }
  | check2Miss (s : ConcState) : s.pc2 = .start → s.cacheLoaded = false →
      ConcStep s { s with pc2 := .fetching, fetches2 := s.fetches2 + 1 }
  | complete2 (s : ConcState) : s.pc2 = .fetching →
      ConcStep s { s with pc2 := .done, cacheLoaded := true }

/-- A valid run: consecutive states related by `ConcStep`. -/
def concRun : ConcState → List ConcState → Prop
  | _, [] => True
  | s, t :: rest => ConcStep s t ∧ concRun t rest

/-- Both callers start before any fetch, with an empty module cache. -/
def concInit : ConcState := ⟨false, .start, .start, 0, 0⟩

/-- Final state of a run. -/
def concFinal (s : ConcState) (l : List ConcState) : ConcState :=
  (l.getLastD s)

/-! ## Theorems -/

/-- C10: When `lighten`, `darken`, or `mix` is given a color string that
`hexToRgb` cannot parse (the `null` sentinel), the operation returns its
input unchanged rather than failing: `lighten` and `darken` return the
given color, and `mix` returns its first argument, or the second when the
first is absent (empty). -/
theorem claim_C10_unparseable_passthrough (color : String)
    (h : hexToRgb color = none) :
    (∀ amount : ℚ, lighten color amount = color) ∧
    (∀ amount : ℚ, darken color amount = color) ∧
    (∀ (b : String) (ratio : ℚ),
      mix color b ratio = if color ≠ "" then color else b) ∧
    (∀ (a : String) (ratio : ℚ),
      mix a color ratio = if a ≠ "" then a else color) := by
  refine ⟨fun amount => ?_, fun amount => ?_, fun b ratio => ?_, fun a ratio => ?_⟩
  · simp only [lighten, h]
  · simp only [darken, h]
  · simp only [mix, h]
  · simp only [mix, h]
    cases hexToRgb a <;> rfl

/-- C10 witness: `"#xyz"` does not parse (its cleaned form has length 3),
and each operation passes it through. -/
theorem claim_C10_witness :
    hexToRgb "#xyz" = none ∧ lighten "#xyz" (18 / 100) = "#xyz" ∧
    darken "#xyz" (15 / 100) = "#xyz" ∧
    mix "#xyz" "#FF6B6B" (35 / 100) = (if "#xyz" ≠ "" then "#xyz" else "#FF6B6B") ∧
    mix "#FF6B6B" "#xyz" (35 / 100) = (if "#FF6B6B" ≠ "" then "#FF6B6B" else "#xyz") := by
  have h : hexToRgb "#xyz" = none := rfl
  exact ⟨h, (claim_C10_unparseable_passthrough "#xyz" h).1 _,
    (claim_C10_unparseable_passthrough "#xyz" h).2.1 _,
    (claim_C10_unparseable_passthrough "#xyz" h).2.2.1 _ _,
    (claim_C10_unparseable_passthrough "#xyz" h).2.2.2 _ _⟩

/-- C2: For every query that is a key of `COUNTRY_NAME_MAP`, if a record
of the reference set has its common or official name equal to the mapped
canonical value, `matchCountryName` returns the first such record via the
override strategy, before any exact / normalized / partial strategy is
consulted. -/
theorem claim_C2_override_strategy (query mapped : String)
    (countries : List Country) (r : Country)
    (hmap : countryNameMap query = some mapped)
    (hfind : countries.find? (fun (c : Country) =>
        c.nameCommon == mapped || c.nameOfficial == mapped) = some r) :
    matchCountryName query countries = some r := by
  have hq : ¬(query = "" ∨ countries = []) := by
    rintro (rfl | rfl)
    · exact Option.noConfusion (rfl.symm.trans hmap :
        (none : Option String) = some mapped)
    · simp at hfind
  unfold matchCountryName
  rw [if_neg hq, hmap]
  simp only [hfind]

/-- C2 witness: `"USA"` and `"Czech Republic"` resolve via the override
table to the records named `"United States of America"` and `"Czechia"`,
in a reference set where no exact match for the raw queries exists. -/
theorem claim_C2_witness :
    matchCountryName "USA"
      [⟨"Czechia", "Czech Republic", []⟩,
       ⟨"United States of America", "United States of America", []⟩] =
      some ⟨"United States of America", "United States of America", []⟩ ∧
    matchCountryName "Czech Republic"
      [⟨"Czechia", "Czech Republic", []⟩,
       ⟨"United States of America", "United States of America", []⟩] =
      some ⟨"Czechia", "Czech Republic", []⟩ := by
  constructor
  · exact claim_C2_override_strategy "USA" "United States of America" _ _ rfl rfl
  · exact claim_C2_override_strategy "Czech Republic" "Czechia" _ _ rfl rfl

/-- C4 counterexample: with no cached set and every retry attempt failing,
the retry loop itself ends in a thrown error, yet `fetchCountryData` hands
its caller `none` — the same absent value a resolution miss produces — so
the failure is **not** propagated (the cache is indeed left unchanged). -/
theorem claim_C4_counterexample :
    fetchAttempts (fun _ => none) (fun _ => 0) "Germany" 3 0 = .error () ∧
    fetchCountryData (fun _ => none) (fun _ => 0) 1000 ⟨none, none⟩ "Germany" =
      (none, ⟨none, none⟩) :=
  ⟨rfl, rfl⟩

/-- C4 (amended): when the reference-set fetch fails on all retry attempts
and the cache is not fresh, `fetchCountryData` does **not** surface an
error: the outer `catch` converts the total failure into an absent (`null`)
result — indistinguishable from a resolution miss — even when no previously
cached set exists; the module cache is left exactly as it was. -/
theorem claim_C4_total_failure_returns_null
    (fetchOutcome : ℕ → Option (List Country)) (attemptTime : ℕ → Int)
    (now : Int) (st : RefCacheState) (countryName : String)
    (hfail : ∀ i, i < 3 → fetchOutcome i = none)
    (hstale : cacheFresh st now = false) :
    fetchCountryData fetchOutcome attemptTime now st countryName = (none, st) := by
  unfold fetchCountryData
  rw [hstale]
  simp only [Bool.false_eq_true, if_false]
  have h0 := hfail 0 (by omega)
  have h1 := hfail 1 (by omega)
  have h2 := hfail 2 (by omega)
  simp only [fetchAttempts, h0, h1, h2]

/-- C4 witness: the amended behavior at the concrete failing run. -/
theorem claim_C4_witness :
    fetchCountryData (fun _ => none) (fun _ => 7) 2000 ⟨none, none⟩ "France" =
      (none, ⟨none, none⟩) :=
  claim_C4_total_failure_returns_null (fun _ => none) (fun _ => 7) 2000
    ⟨none, none⟩ "France" (fun _ _ => rfl) rfl

/-- C7: the code contradicts the claim — `lighten`, `darken` and `mix` do
not round their channels, and JS `Number.prototype.toString(16)` prints a
fractional part for a non-integer channel, so the derived color is not a
6-hex-digit string.  `darken('#000001', 0.5)` computes the channel `0.5`
and serializes to `"#00000.8"`; likewise every fallback palette built by
`getCountryPalette` carries a malformed `accentLight`
(`lighten('#C77442', 0.18)` has channel `199 + 56·0.18`, a non-integer). -/
theorem claim_C7_fractional_hex_channels :
    darken "#000001" (1 / 2) = "#00000.8" ∧
    wellFormedHexB (darken "#000001" (1 / 2)) = false ∧
    mix "#000000" "#000001" (1 / 2) = "#00000.8" ∧
    (getCountryPalette (fun _ => .error ()) [] ⟨none, none, none, none, none⟩
        none none).1.accentLight = lighten "#C77442" (18 / 100) ∧
    wellFormedHexB (lighten "#C77442" (18 / 100)) = false := by
  refine ⟨by with_unfolding_all decide, by with_unfolding_all decide,
    by with_unfolding_all decide, rfl, by with_unfolding_all decide⟩

/-- Reading back the key just written into the palette cache. -/
theorem cacheGet_cacheSet (cache : FlagCache) (k : String) (v : FlagResult) :
    cacheGet (cacheSet cache k v) k = some v := by
  induction cache with
  | nil => simp [cacheSet, cacheGet, List.find?]
  | cons e rest ih =>
    obtain ⟨k', v'⟩ := e
    by_cases h : k' = k
    · subst h
      simp [cacheSet, cacheGet, List.find?]
    · simpa [cacheSet, cacheGet, List.find?, h] using ih

/-- C5: `extractFlagColors` never raises — the model is a total function and
every failure path produces the fallback shape.  An absent image reference
immediately yields `{primary: fallbackColor, secondary: null}` without
touching the cache; a load failure yields the same fallback result, caches
it, and any later call for the same reference returns the cached fallback
without attempting another load (the `Bool` component records whether a
load was attempted). -/
theorem claim_C5_extract_failure_policy
    (load load2 : String → Except Unit (List Rgba)) (cache : FlagCache)
    (flagUrl fallback fb2 : String)
    (hurl : flagUrl ≠ "") (hmiss : cacheGet cache flagUrl = none)
    (hfail : load flagUrl = .error ()) :
    extractFlagColors load cache "" fallback = (⟨fallback, none⟩, cache, false) ∧
    extractFlagColors load cache flagUrl fallback =
      (⟨fallback, none⟩, cacheSet cache flagUrl ⟨fallback, none⟩, true) ∧
    extractFlagColors load2 (cacheSet cache flagUrl ⟨fallback, none⟩) flagUrl fb2 =
      (⟨fallback, none⟩, cacheSet cache flagUrl ⟨fallback, none⟩, false) := by
  refine ⟨by simp [extractFlagColors], ?_, ?_⟩
  · simp [extractFlagColors, hurl, hmiss, hfail]
  · simp [extractFlagColors, hurl, cacheGet_cacheSet]

/-- C5 witness: the failure policy at a concrete broken image URL. -/
theorem claim_C5_witness :
    extractFlagColors (fun _ => .error ()) [] "" "#888888" =
      (⟨"#888888", none⟩, [], false) ∧
    extractFlagColors (fun _ => .error ()) [] "https://flags.example/xx.svg" "#888888" =
      (⟨"#888888", none⟩,
       cacheSet [] "https://flags.example/xx.svg" ⟨"#888888", none⟩, true) ∧
    extractFlagColors (fun _ => .ok [])
        (cacheSet [] "https://flags.example/xx.svg" ⟨"#888888", none⟩)
        "https://flags.example/xx.svg" "#C77442" =
      (⟨"#888888", none⟩,
       cacheSet [] "https://flags.example/xx.svg" ⟨"#888888", none⟩, false) :=
  claim_C5_extract_failure_policy (fun _ => .error ()) (fun _ => .ok []) []
    "https://flags.example/xx.svg" "#888888" "#C77442" (by decide) rfl rfl

/-- The distance of a color to itself is zero. -/
theorem colorDistanceSq_self (c : Rgb) : colorDistanceSq c c = 0 := by
  simp [colorDistanceSq]

/-- C6: on a fresh (cache-missing, successful-load) extraction, the result
is primary = top-ranked bucket with secondary chosen by the first-qualifying
scan; whenever `secondary` is present its (squared) distance from `primary`
exceeds `40²`; if every surviving dominant color is within distance 40 of
the primary, `secondary` is absent; and `secondary` is exactly the first
ranked bucket after the primary whose distance qualifies. -/
theorem claim_C6_secondary_selection
    (load : String → Except Unit (List Rgba)) (cache : FlagCache)
    (flagUrl fallback : String) (pixels : List Rgba)
    (colors : List Rgb) (primary : Rgb) (secondary : Option Rgb)
    (hurl : flagUrl ≠ "") (hmiss : cacheGet cache flagUrl = none)
    (hok : load flagUrl = .ok pixels)
    (hc : colors = sampleImageColors pixels)
    (hp : primary = pickPrimary colors fallback)
    (hs : secondary = pickSecondary colors primary) :
    (extractFlagColors load cache flagUrl fallback).1 =
      ⟨rgbToHex primary, secondary.map rgbToHex⟩ ∧
    (∀ s, secondary = some s → 1600 < colorDistanceSq s primary) ∧
    ((∀ c ∈ colors, colorDistanceSq c primary ≤ 1600) → secondary = none) ∧
    (∀ rest, colors = primary :: rest →
      secondary = rest.find? (fun c => 1600 < colorDistanceSq c primary)) := by
  refine ⟨?_, ?_, ?_, ?_⟩
  · subst hc hp hs
    simp [extractFlagColors, hurl, hmiss, hok]
  · intro s hsec
    subst hs
    simpa using List.find?_some (show colors.find?
      (fun c => decide (1600 < colorDistanceSq c primary)) = some s from hsec)
  · intro hall
    subst hs
    refine List.find?_eq_none.mpr ?_
    intro x hx
    simpa using not_lt.mpr (hall x hx)
  · intro rest hrest
    subst hs hrest
    simp only [pickSecondary, List.find?, colorDistanceSq_self]
    rw [decide_eq_false (by norm_num : ¬((1600 : ℚ) < 0))]

/-- C6 witness: a flag sample of two red pixels and one blue pixel ranks
red first; blue is far enough (distance² = 82944 > 1600) to become the
secondary. -/
theorem claim_C6_witness :
    (extractFlagColors
        (fun _ => .ok [⟨200, 0, 0, 255⟩, ⟨200, 0, 0, 255⟩, ⟨0, 100, 200, 255⟩])
        [] "https://flags.example/us.svg" "#888888").1 =
      ⟨rgbToHex ⟨208, 16, 16⟩, (some (⟨16, 112, 208⟩ : Rgb)).map rgbToHex⟩ ∧
    (∀ s, (some (⟨16, 112, 208⟩ : Rgb)) = some s →
      1600 < colorDistanceSq s ⟨208, 16, 16⟩) ∧
    ((∀ c ∈ ([⟨208, 16, 16⟩, ⟨16, 112, 208⟩] : List Rgb),
        colorDistanceSq c ⟨208, 16, 16⟩ ≤ 1600) →
      (some (⟨16, 112, 208⟩ : Rgb)) = none) ∧
    (∀ rest, ([⟨208, 16, 16⟩, ⟨16, 112, 208⟩] : List Rgb) = ⟨208, 16, 16⟩ :: rest →
      (some (⟨16, 112, 208⟩ : Rgb)) =
        rest.find? (fun c => 1600 < colorDistanceSq c ⟨208, 16, 16⟩)) :=
  claim_C6_secondary_selection
    (fun _ => .ok [⟨200, 0, 0, 255⟩, ⟨200, 0, 0, 255⟩, ⟨0, 100, 200, 255⟩])
    [] "https://flags.example/us.svg" "#888888"
    [⟨200, 0, 0, 255⟩, ⟨200, 0, 0, 255⟩, ⟨0, 100, 200, 255⟩]
    [⟨208, 16, 16⟩, ⟨16, 112, 208⟩] ⟨208, 16, 16⟩ (some ⟨16, 112, 208⟩)
    (by decide) rfl rfl (by with_unfolding_all decide) rfl
    (by with_unfolding_all decide)

/-- The features produced by a `processNext` run are exactly the input
features each processed independently by the per-feature body: no feature's
outcome influences a sibling's. -/
theorem processNextRun_fst (m : List (String × FlagEntry))
    (d : FlagEntry → String → Except Unit Palette) (fs : List Feature) :
    (processNextRun m d fs).1 = fs.map (processFeature m d) := by
  generalize hn : fs.length = n
  induction n using Nat.strong_induction_on generalizing fs with
  | _ n ih =>
  rw [processNextRun]
  by_cases h : fs.length ≤ 6
  · rw [dif_pos h, List.take_of_length_le h]
  · rw [dif_neg h]
    have hr := ih (fs.drop 6).length
      (by simp only [List.length_drop]; omega) (fs.drop 6) rfl
    simp only [hr, ← List.map_drop, ← List.map_append, List.take_append_drop]

/-- A 12-feature run publishes exactly twice: once after each of its two
slices of 6. -/
theorem processNextRun_snd_twelve (m : List (String × FlagEntry))
    (d : FlagEntry → String → Except Unit Palette) (fs : List Feature)
    (h : fs.length = 12) : (processNextRun m d fs).2 = 2 := by
  rw [processNextRun, dif_neg (by omega : ¬fs.length ≤ 6)]
  rw [processNextRun, dif_pos
    (by simp only [List.length_drop]; omega : (fs.drop 6).length ≤ 6)]

/-- The per-feature body leaves `iso3` and `baseColor` untouched, and a
feature that entered with `color = baseColor` leaves with `color` equal
either to its own `baseColor` or to its successfully derived palette
accent. -/
theorem processFeature_cases (m : List (String × FlagEntry))
    (d : FlagEntry → String → Except Unit Palette) (iso3 : Option String)
    (base : String) :
    (processFeature m d ⟨iso3, base, base⟩).iso3 = iso3 ∧
    (processFeature m d ⟨iso3, base, base⟩).baseColor = base ∧
    ((processFeature m d ⟨iso3, base, base⟩).color = base ∨
      ∃ code entry palette,
        iso3 = some code ∧
        flagMapGet m (jsUpper code) = some entry ∧
        d entry base = .ok palette ∧
        palette.accent ≠ "" ∧
        (processFeature m d ⟨iso3, base, base⟩).color = palette.accent) := by
  cases iso3 with
  | none => exact ⟨rfl, rfl, Or.inl rfl⟩
  | some code =>
    by_cases hc : code = ""
    · subst hc
      exact ⟨rfl, rfl, Or.inl rfl⟩
    · cases hcache : flagMapGet m (jsUpper code) with
      | none => simp [processFeature, if_neg hc, hcache]
      | some entry =>
        cases hd : d entry base with
        | error e => simp [processFeature, if_neg hc, hcache, hd]
        | ok palette =>
          by_cases ha : palette.accent = ""
          · simp [processFeature, if_neg hc, hcache, hd, ha]
          · have hb : (palette.accent != "") = true := by simpa using ha
            refine ⟨by simp [processFeature, if_neg hc, hcache, hd],
              by simp [processFeature, if_neg hc, hcache, hd], Or.inr
              ⟨code, entry, palette, rfl, hcache, hd, ha, ?_⟩⟩
            simp [processFeature, if_neg hc, hcache, hd, hb]

/-- C1: enrichment over a 12-feature set with slice size 6 publishes
exactly twice; and over **any** feature set, the final features are the
input processed feature-by-feature (so one feature's palette failure cannot
abort the batch or affect a sibling), and every feature ends with `color`
equal either to its successfully resolved palette accent or to its original
`baseColor` — never absent. -/
theorem claim_C1_enrichment_batches (flagMap : List (String × FlagEntry))
    (deriv : FlagEntry → String → Except Unit Palette) :
    (∀ raw : List RawFeature, raw.length = 12 →
      (enrichFeatures flagMap deriv raw).2 = 2) ∧
    (∀ raw : List RawFeature,
      (enrichFeatures flagMap deriv raw).1 =
        (raw.map initFeature).map (processFeature flagMap deriv)) ∧
    (∀ raw : List RawFeature, ∀ g ∈ (enrichFeatures flagMap deriv raw).1,
      g.color = g.baseColor ∨ ∃ code entry palette,
        g.iso3 = some code ∧ flagMapGet flagMap (jsUpper code) = some entry ∧
        deriv entry g.baseColor = .ok palette ∧ palette.accent ≠ "" ∧
        g.color = palette.accent) := by
  refine ⟨fun raw h12 => processNextRun_snd_twelve _ _ _ (by simpa using h12),
    fun raw => processNextRun_fst _ _ _, ?_⟩
  intro raw g hg
  rw [enrichFeatures, processNextRun_fst] at hg
  obtain ⟨f, hf, rfl⟩ := List.mem_map.mp hg
  obtain ⟨rf, _, rfl⟩ := List.mem_map.mp hf
  obtain ⟨h1, h2, h3⟩ := processFeature_cases flagMap deriv rf.iso3
    (getBaseColorForFeature rf.continent)
  rw [show initFeature rf =
    ⟨rf.iso3, getBaseColorForFeature rf.continent,
      getBaseColorForFeature rf.continent⟩ from rfl]
  rw [h1, h2]
  exact h3

/-- C1 witness: twelve concrete features (one resolvable, the rest with no
ISO3 code) under an always-failing palette oracle. -/
theorem claim_C1_witness :
    (enrichFeatures [("USA", ⟨some "Americas", none, none⟩)]
      (fun _ _ => .error ())
      (⟨some "USA", some "Americas"⟩ :: List.replicate 11 ⟨none, none⟩)).2 = 2 ∧
    (enrichFeatures [("USA", ⟨some "Americas", none, none⟩)]
      (fun _ _ => .error ())
      (⟨some "USA", some "Americas"⟩ :: List.replicate 11 ⟨none, none⟩)).1 =
      ((⟨some "USA", some "Americas"⟩ :: List.replicate 11
          (⟨none, none⟩ : RawFeature)).map initFeature).map
        (processFeature [("USA", ⟨some "Americas", none, none⟩)]
          (fun _ _ => .error ())) ∧
    (∀ g ∈ (enrichFeatures [("USA", ⟨some "Americas", none, none⟩)]
        (fun _ _ => .error ())
        (⟨some "USA", some "Americas"⟩ :: List.replicate 11 ⟨none, none⟩)).1,
      g.color = g.baseColor ∨ ∃ code entry palette,
        g.iso3 = some code ∧
        flagMapGet [("USA", ⟨some "Americas", none, none⟩)] (jsUpper code) = some entry ∧
        (fun (_ : FlagEntry) (_ : String) =>
          (.error () : Except Unit Palette)) entry g.baseColor = .ok palette ∧
        palette.accent ≠ "" ∧ g.color = palette.accent) :=
  ⟨(claim_C1_enrichment_batches [("USA", ⟨some "Americas", none, none⟩)]
      (fun _ _ => .error ())).1
    (⟨some "USA", some "Americas"⟩ :: List.replicate 11 ⟨none, none⟩) (by decide),
   (claim_C1_enrichment_batches [("USA", ⟨some "Americas", none, none⟩)]
      (fun _ _ => .error ())).2.1
    (⟨some "USA", some "Americas"⟩ :: List.replicate 11 ⟨none, none⟩),
   (claim_C1_enrichment_batches [("USA", ⟨some "Americas", none, none⟩)]
      (fun _ _ => .error ())).2.2
    (⟨some "USA", some "Americas"⟩ :: List.replicate 11 ⟨none, none⟩)⟩

/-- C3 counterexample: a valid interleaving in which the second caller
checks the cache while the first caller's fetch is still pending; both
callers complete and **two** network fetches have been issued — not one. -/
theorem claim_C3_counterexample :
    concRun concInit
      [⟨false, .fetching, .start, 1, 0⟩,
       ⟨false, .fetching, .fetching, 1, 1⟩,
       ⟨true, .done, .fetching, 1, 1⟩,
       ⟨true, .done, .done, 1, 1⟩] ∧
    (concFinal concInit
      [⟨false, .fetching, .start, 1, 0⟩,
       ⟨false, .fetching, .fetching, 1, 1⟩,
       ⟨true, .done, .fetching, 1, 1⟩,
       ⟨true, .done, .done, 1, 1⟩]).pc1 = .done ∧
    (concFinal concInit
      [⟨false, .fetching, .start, 1, 0⟩,
       ⟨false, .fetching, .fetching, 1, 1⟩,
       ⟨true, .done, .fetching, 1, 1⟩,
       ⟨true, .done, .done, 1, 1⟩]).pc2 = .done ∧
    (concFinal concInit
      [⟨false, .fetching, .start, 1, 0⟩,
       ⟨false, .fetching, .fetching, 1, 1⟩,
       ⟨true, .done, .fetching, 1, 1⟩,
       ⟨true, .done, .done, 1, 1⟩]).fetches1 +
    (concFinal concInit
      [⟨false, .fetching, .start, 1, 0⟩,
       ⟨false, .fetching, .fetching, 1, 1⟩,
       ⟨true, .done, .fetching, 1, 1⟩,
       ⟨true, .done, .done, 1, 1⟩]).fetches2 = 2 := by
  refine ⟨⟨?_, ?_, ?_, ?_, trivial⟩, rfl, rfl, rfl⟩
  · exact ConcStep.check1Miss concInit rfl rfl
  · exact ConcStep.check2Miss ⟨false, .fetching, .start, 1, 0⟩ rfl rfl
  · exact ConcStep.complete1 ⟨false, .fetching, .fetching, 1, 1⟩ rfl
  · exact ConcStep.complete2 ⟨true, .done, .fetching, 1, 1⟩ rfl

/-- Invariant of the two-caller system: a caller that has not yet checked
the cache has fetched nothing, a caller whose fetch is pending has fetched
exactly once, and no caller ever fetches twice. -/
def ConcInv (s : ConcState) : Prop :=
  (s.pc1 = .start → s.fetches1 = 0) ∧ (s.pc1 = .fetching → s.fetches1 = 1) ∧
  s.fetches1 ≤ 1 ∧
  (s.pc2 = .start → s.fetches2 = 0) ∧ (s.pc2 = .fetching → s.fetches2 = 1) ∧
  s.fetches2 ≤ 1

/-- Every step preserves `ConcInv`. -/
theorem concStep_inv {s t : ConcState} (hinv : ConcInv s) (hst : ConcStep s t) :
    ConcInv t := by
  obtain ⟨h1, h2, h3, h4, h5, h6⟩ := hinv
  cases hst with
  | check1Hit hpc hc =>
    exact ⟨by simp [hpc], by simp [hpc], h3, h4, h5, h6⟩
  | check1Miss hpc hc =>
    exact ⟨by simp, by simp [h1 hpc], by simp [h1 hpc], h4, h5, h6⟩
  | complete1 hpc =>
    exact ⟨by simp, by simp, h3, h4, h5, h6⟩
  | check2Hit hpc hc =>
    exact ⟨h1, h2, h3, by simp [hpc], by simp [hpc], h6⟩
  | check2Miss hpc hc =>
    exact ⟨h1, h2, h3, by simp, by simp [h4 hpc], by simp [h4 hpc]⟩
  | complete2 hpc =>
    exact ⟨h1, h2, h3, by simp, by simp, h6⟩

/-- Fetch counters never decrease along a step. -/
theorem concStep_mono {s t : ConcState} (hst : ConcStep s t) :
    s.fetches1 ≤ t.fetches1 ∧ s.fetches2 ≤ t.fetches2 := by
  cases hst <;> simp

/-- Peeling one state off a run's final-state computation. -/
theorem concFinal_cons (s t : ConcState) (rest : List ConcState) :
    concFinal s (t :: rest) = concFinal t rest :=
  List.getLastD_cons _ _ _

/-- The invariant propagates to the final state of a run. -/
theorem concRun_inv : ∀ (l : List ConcState) (s : ConcState),
    ConcInv s → concRun s l → ConcInv (concFinal s l)
  | [], _, hinv, _ => hinv
  | t :: rest, s, hinv, ⟨hst, hrun⟩ =>
    (concFinal_cons s t rest) ▸ concRun_inv rest t (concStep_inv hinv hst) hrun

/-- Fetch counters never decrease along a run. -/
theorem concRun_mono : ∀ (l : List ConcState) (s : ConcState), concRun s l →
    s.fetches1 ≤ (concFinal s l).fetches1 ∧
    s.fetches2 ≤ (concFinal s l).fetches2
  | [], _, _ => ⟨le_refl _, le_refl _⟩
  | t :: rest, s, ⟨hst, hrun⟩ => by
    have h1 := concStep_mono hst
    have h2 := concRun_mono rest t hrun
    rw [concFinal_cons]
    exact ⟨le_trans h1.1 h2.1, le_trans h1.2 h2.2⟩

/-- If a run passes through an overlap state (both callers fetching at
once), each caller has fetched once there, and the counters can neither
decrease nor exceed one, so they stay at one each to the end. -/
theorem concAux : ∀ (l : List ConcState) (s : ConcState), ConcInv s →
    concRun s l →
    ((s.pc1 = .fetching ∧ s.pc2 = .fetching) ∨
      ∃ t ∈ l, t.pc1 = .fetching ∧ t.pc2 = .fetching) →
    (concFinal s l).fetches1 = 1 ∧ (concFinal s l).fetches2 = 1 := by
  intro l
  induction l with
  | nil =>
    intro s hinv _ hover
    rcases hover with ⟨hp1, hp2⟩ | ⟨t, ht, _⟩
    · exact ⟨hinv.2.1 hp1, hinv.2.2.2.2.1 hp2⟩
    · cases ht
  | cons t rest ih =>
    intro s hinv hrun hover
    obtain ⟨hst, hrest⟩ := hrun
    have hinvt := concStep_inv hinv hst
    rcases hover with ⟨hp1, hp2⟩ | ⟨u, hu, hou⟩
    · have hs1 : s.fetches1 = 1 := hinv.2.1 hp1
      have hs2 : s.fetches2 = 1 := hinv.2.2.2.2.1 hp2
      have hmono1 := concStep_mono hst
      have hmono2 := concRun_mono rest t hrest
      have hfin := concRun_inv rest t hinvt hrest
      rw [concFinal_cons]
      constructor
      · have hle := le_trans hmono1.1 hmono2.1
        have hub := hfin.2.2.1
        omega
      · have hle := le_trans hmono1.2 hmono2.2
        have hub := hfin.2.2.2.2.2
        omega
    · rw [concFinal_cons]
      rcases List.mem_cons.mp hu with heq | hu'
      · exact ih t hinvt hrest (Or.inl (heq ▸ hou))
      · exact ih t hinvt hrest (Or.inr ⟨u, hu', hou⟩)

/-- C3 (amended): `fetchCountryData` has no shared pending operation — in
every complete two-caller execution in which the second cache check happens
while the other caller's fetch is pending (an overlap), **each** caller
issues exactly one network fetch, two in total; a single total fetch occurs
only in schedules where the later caller checks after the earlier fetch has
already populated the cache. -/
theorem claim_C3_no_single_flight (l : List ConcState)
    (hrun : concRun concInit l)
    (hover : ∃ t ∈ l, t.pc1 = .fetching ∧ t.pc2 = .fetching) :
    (concFinal concInit l).fetches1 = 1 ∧ (concFinal concInit l).fetches2 = 1 := by
  refine concAux l concInit ?_ hrun (Or.inr hover)
  exact ⟨fun _ => rfl, by simp [concInit], by simp [concInit],
    fun _ => rfl, by simp [concInit], by simp [concInit]⟩

/-- C3 witness: the amended statement applied to the overlapping
interleaving. -/
theorem claim_C3_witness :
    (concFinal concInit
      [⟨false, .fetching, .start, 1, 0⟩,
       ⟨false, .fetching, .fetching, 1, 1⟩,
       ⟨true, .done, .fetching, 1, 1⟩,
       ⟨true, .done, .done, 1, 1⟩]).fetches1 = 1 ∧
    (concFinal concInit
      [⟨false, .fetching, .start, 1, 0⟩,
       ⟨false, .fetching, .fetching, 1, 1⟩,
       ⟨true, .done, .fetching, 1, 1⟩,
       ⟨true, .done, .done, 1, 1⟩]).fetches2 = 1 :=
  claim_C3_no_single_flight _
    ⟨ConcStep.check1Miss concInit rfl rfl,
     ConcStep.check2Miss ⟨false, .fetching, .start, 1, 0⟩ rfl rfl,
     ConcStep.complete1 ⟨false, .fetching, .fetching, 1, 1⟩ rfl,
     ConcStep.complete2 ⟨true, .done, .fetching, 1, 1⟩ rfl, trivial⟩
    ⟨⟨false, .fetching, .fetching, 1, 1⟩, by simp, rfl, rfl⟩

/-- C8 counterexample: the source trims **before** stripping punctuation,
so `normalizeName("! a")` is `" a"` — the result begins with a whitespace
character, contradicting "no leading or trailing whitespace in the
result". -/
theorem claim_C8_counterexample :
    normalizeName "! a" = " a" ∧
    ((normalizeName "! a").data.head?.map jsIsWs) = some true := by
  exact ⟨rfl, rfl⟩

/-- `(Char.ofNat n).toNat = n` on the valid range used by ASCII case
mapping. -/
theorem charToNat_ofNat (n : ℕ) (h : n < 55296) : (Char.ofNat n).toNat = n := by
  have hv : Nat.isValidChar n := Or.inl h
  simp [Char.ofNat, Char.ofNatAux, Char.toNat, hv, UInt32.toNat, UInt32.ofNatCore]

/-- ASCII lower-casing never produces an uppercase ASCII letter. -/
theorem jsToLowerChar_not_upper (c : Char) :
    ¬(65 ≤ (jsToLowerChar c).toNat ∧ (jsToLowerChar c).toNat ≤ 90) := by
  unfold jsToLowerChar
  by_cases h : 65 ≤ c.toNat ∧ c.toNat ≤ 90
  · have hb : (65 ≤ c.toNat && c.toNat ≤ 90) = true := by
      simp [h.1, h.2]
    rw [if_pos hb, charToNat_ofNat _ (by omega)]
    omega
  · have hb : (65 ≤ c.toNat && c.toNat ≤ 90) = false := by
      rcases not_and_or.mp h with h' | h'
      · simp [h']
      · simp [h']
    rw [if_neg (by simp [hb])]
    omega

/-- Membership in a trimmed list implies membership in the original. -/
theorem mem_jsTrim {c : Char} {l : List Char} (h : c ∈ jsTrim l) : c ∈ l := by
  unfold jsTrim at h
  rw [List.mem_reverse] at h
  have h2 := (List.dropWhile_sublist jsIsWs).subset h
  rw [List.mem_reverse] at h2
  exact (List.dropWhile_sublist jsIsWs).subset h2

/-- Every character of a collapsed list is either the injected space or a
non-whitespace character of the input. -/
theorem collapseWsGo_mem : ∀ (l : List Char) (b : Bool) (c : Char),
    c ∈ collapseWsGo b l → c = ' ' ∨ (c ∈ l ∧ jsIsWs c = false) := by
  intro l
  induction l with
  | nil => intro b c hc; simp [collapseWsGo] at hc
  | cons x rest ih =>
    intro b c hc
    by_cases hx : jsIsWs x
    · rw [show collapseWsGo b (x :: rest) =
          (if b then collapseWsGo true rest
            else ' ' :: collapseWsGo true rest) by simp [collapseWsGo, hx]] at hc
      cases b with
      | true =>
        rw [if_pos rfl] at hc
        rcases ih true c hc with h | ⟨h1, h2⟩
        · exact Or.inl h
        · exact Or.inr ⟨List.mem_cons_of_mem _ h1, h2⟩
      | false =>
        rw [if_neg (by simp)] at hc
        rcases List.mem_cons.mp hc with h | h
        · exact Or.inl h
        · rcases ih true c h with h' | ⟨h1, h2⟩
          · exact Or.inl h'
          · exact Or.inr ⟨List.mem_cons_of_mem _ h1, h2⟩
    · rw [show collapseWsGo b (x :: rest) = x :: collapseWsGo false rest by
          simp [collapseWsGo, hx]] at hc
      rcases List.mem_cons.mp hc with h | h
      · subst h
        exact Or.inr ⟨List.mem_cons_self _ _, by simpa using hx⟩
      · rcases ih false c h with h' | ⟨h1, h2⟩
        · exact Or.inl h'
        · exact Or.inr ⟨List.mem_cons_of_mem _ h1, h2⟩

/-- After a space has just been emitted, the next emitted character is
never whitespace. -/
theorem collapseWsGo_head_true : ∀ (l : List Char) (c : Char),
    (collapseWsGo true l).head? = some c → jsIsWs c = false := by
  intro l
  induction l with
  | nil => intro c hc; simp [collapseWsGo] at hc
  | cons x rest ih =>
    intro c hc
    by_cases hx : jsIsWs x
    · rw [show collapseWsGo true (x :: rest) = collapseWsGo true rest by
          simp [collapseWsGo, hx]] at hc
      exact ih c hc
    · rw [show collapseWsGo true (x :: rest) = x :: collapseWsGo false rest by
          simp [collapseWsGo, hx]] at hc
      simp only [List.head?_cons, Option.some.injEq] at hc
      subst hc
      simpa using hx

/-- The collapsed list never has two adjacent whitespace characters: every
whitespace run became a single space. -/
theorem collapseWsGo_chain : ∀ (l : List Char) (b : Bool),
    (collapseWsGo b l).Chain' (fun a c => ¬(jsIsWs a = true ∧ jsIsWs c = true)) := by
  intro l
  induction l with
  | nil => intro b; simp [collapseWsGo]
  | cons x rest ih =>
    intro b
    by_cases hx : jsIsWs x
    · cases b with
      | true =>
        rw [show collapseWsGo true (x :: rest) = collapseWsGo true rest by
            simp [collapseWsGo, hx]]
        exact ih true
      | false =>
        rw [show collapseWsGo false (x :: rest) = ' ' :: collapseWsGo true rest by
            simp [collapseWsGo, hx]]
        refine List.chain'_cons'.mpr ⟨?_, ih true⟩
        intro y hy
        rw [collapseWsGo_head_true rest y hy]
        simp
    · rw [show collapseWsGo b (x :: rest) = x :: collapseWsGo false rest by
          simp [collapseWsGo, hx]]
      refine List.chain'_cons'.mpr ⟨?_, ih false⟩
      intro y hy
      simp [hx]

/-- C8 (amended): `normalizeName` lower-cases, trims, strips every
character that is neither a word character nor whitespace, and collapses
every whitespace run to one space — but because the trim happens **before**
the stripping, a single leading or trailing space can survive when
punctuation next to edge whitespace is removed.  Formally: empty input
yields the empty string; every output character is a word character or a
space; no output character is an uppercase ASCII letter; and no two
adjacent output characters are whitespace. -/
theorem claim_C8_normalize_shape (name : String) :
    normalizeName "" = "" ∧
    (∀ c ∈ (normalizeName name).data, jsIsWord c = true ∨ c = ' ') ∧
    (∀ c ∈ (normalizeName name).data, ¬(65 ≤ c.toNat ∧ c.toNat ≤ 90)) ∧
    (normalizeName name).data.Chain'
      (fun a c => ¬(jsIsWs a = true ∧ jsIsWs c = true)) := by
  by_cases hname : name = ""
  · subst hname
    refine ⟨rfl, ?_, ?_, ?_⟩ <;> simp [normalizeName]
  · have hdata : (normalizeName name).data =
        collapseWs ((jsTrim (name.data.map jsToLowerChar)).filter
          (fun c => jsIsWord c || jsIsWs c)) := by
      simp [normalizeName, hname]
    refine ⟨rfl, ?_, ?_, ?_⟩
    · intro c hc
      rw [hdata] at hc
      rcases collapseWsGo_mem _ false c hc with h | ⟨h1, h2⟩
      · exact Or.inr h
      · have := (List.mem_filter.mp h1).2
        rcases Bool.or_eq_true_iff.mp this with h' | h'
        · exact Or.inl h'
        · rw [h'] at h2
          exact absurd h2 (by simp)
    · intro c hc
      rw [hdata] at hc
      rcases collapseWsGo_mem _ false c hc with h | ⟨h1, _⟩
      · subst h
        intro hcon
        exact absurd hcon (by decide)
      · have hmem := mem_jsTrim (List.mem_filter.mp h1).1
        obtain ⟨c0, _, rfl⟩ := List.mem_map.mp hmem
        exact jsToLowerChar_not_upper c0
    · rw [hdata]
      exact collapseWsGo_chain _ false

/-- C8 witness: the amended shape at a concrete messy input. -/
theorem claim_C8_witness :
    normalizeName "" = "" ∧
    (∀ c ∈ (normalizeName "  Côte  d\x27IVOIRE! ").data,
      jsIsWord c = true ∨ c = ' ') ∧
    (∀ c ∈ (normalizeName "  Côte  d\x27IVOIRE! ").data,
      ¬(65 ≤ c.toNat ∧ c.toNat ≤ 90)) ∧
    (normalizeName "  Côte  d\x27IVOIRE! ").data.Chain'
      (fun a c => ¬(jsIsWs a = true ∧ jsIsWs c = true)) :=
  claim_C8_normalize_shape "  Côte  d\x27IVOIRE! "

/-- A hex digit's value is below 16. -/
theorem hexDigitVal_lt {c : Char} {d : ℕ} (h : hexDigitVal c = some d) :
    d < 16 := by
  unfold hexDigitVal at h
  split at h
  · next hcond =>
    rw [Bool.and_eq_true, decide_eq_true_eq, decide_eq_true_eq] at hcond
    injection h with h'
    omega
  split at h
  · next hcond =>
    rw [Bool.and_eq_true, decide_eq_true_eq, decide_eq_true_eq] at hcond
    injection h with h'
    omega
  split at h
  · next hcond =>
    rw [Bool.and_eq_true, decide_eq_true_eq, decide_eq_true_eq] at hcond
    injection h with h'
    omega
  · exact absurd h (by simp)

/-- A hex digit is never a JS whitespace character. -/
theorem hexDigit_not_ws {c : Char} {d : ℕ} (h : hexDigitVal c = some d) :
    jsIsWs c = false := by
  have hrange : (48 ≤ c.toNat ∧ c.toNat ≤ 57) ∨ (97 ≤ c.toNat ∧ c.toNat ≤ 102) ∨
      (65 ≤ c.toNat ∧ c.toNat ≤ 70) := by
    unfold hexDigitVal at h
    split at h
    · next hcond =>
      rw [Bool.and_eq_true, decide_eq_true_eq, decide_eq_true_eq] at hcond
      exact Or.inl hcond
    split at h
    · next hcond =>
      rw [Bool.and_eq_true, decide_eq_true_eq, decide_eq_true_eq] at hcond
      exact Or.inr (Or.inl hcond)
    split at h
    · next hcond =>
      rw [Bool.and_eq_true, decide_eq_true_eq, decide_eq_true_eq] at hcond
      exact Or.inr (Or.inr hcond)
    · exact absurd h (by simp)
  unfold jsIsWs
  simp only [Bool.or_eq_false_iff, Bool.and_eq_false_iff, decide_eq_false_iff_not]
  omega

/-- Trimming a list with no whitespace characters is the identity. -/
theorem jsTrim_eq_self (l : List Char) (hl : ∀ c ∈ l, jsIsWs c = false) :
    jsTrim l = l := by
  have key : ∀ (m : List Char), (∀ c ∈ m, jsIsWs c = false) →
      m.dropWhile jsIsWs = m := by
    intro m hm
    cases m with
    | nil => rfl
    | cons x rest =>
      rw [List.dropWhile_cons, if_neg]
      rw [hm x (List.mem_cons_self _ _)]
      simp
  unfold jsTrim
  rw [key l hl, key l.reverse (fun c hc => hl c (List.mem_reverse.mp hc)),
    List.reverse_reverse]

/-- Serializing a natural channel below 256 yields its two hex digits. -/
theorem toHexComp_nat (n : ℕ) (hn : n < 256) :
    toHexComp (n : ℚ) = [hexDigitChar (n / 16), hexDigitChar (n % 16)] := by
  have hclamp : clamp255 (n : ℚ) = (n : ℚ) := by
    unfold clamp255
    rw [min_eq_right (by exact_mod_cast Nat.le_of_lt_succ (by omega)),
      max_eq_right (by positivity)]
  have hfloor : ⌊(n : ℚ)⌋ = (n : ℤ) := Int.floor_natCast n
  have hint : (n : ℚ) = ((⌊(n : ℚ)⌋ : ℤ) : ℚ) := by
    rw [hfloor]
    push_cast
    rfl
  have hq : qToString16 (n : ℚ) = natHex n := by
    unfold qToString16
    rw [if_pos hint, hfloor]
    norm_num
  unfold toHexComp
  rw [hclamp, hq]
  by_cases h16 : n < 16
  · rw [natHex, dif_pos h16]
    unfold padStart2
    rw [show n / 16 = 0 from by omega, show n % 16 = n from by omega]
    rfl
  · rw [natHex, dif_neg h16, natHex, dif_pos (by omega : n / 16 < 16)]
    unfold padStart2
    rfl

/-- Uppercasing the hex digit printed for a digit value gives the same
character as uppercasing the original digit character. -/
theorem upper_hexDigitChar {c : Char} {d : ℕ} (h : hexDigitVal c = some d) :
    jsToUpperChar (hexDigitChar d) = jsToUpperChar c := by
  unfold hexDigitVal at h
  split at h
  · next hcond =>
    rw [Bool.and_eq_true, decide_eq_true_eq, decide_eq_true_eq] at hcond
    injection h with h'
    subst h'
    rw [hexDigitChar, if_pos (by omega : c.toNat - 48 < 10),
      show 48 + (c.toNat - 48) = c.toNat from by omega, Char.ofNat_toNat]
  split at h
  · next hcond =>
    rw [Bool.and_eq_true, decide_eq_true_eq, decide_eq_true_eq] at hcond
    injection h with h'
    subst h'
    rw [hexDigitChar, if_neg (by omega : ¬c.toNat - 87 < 10),
      show 87 + (c.toNat - 87) = c.toNat from by omega, Char.ofNat_toNat]
  split at h
  · next hcond =>
    rw [Bool.and_eq_true, decide_eq_true_eq, decide_eq_true_eq] at hcond
    injection h with h'
    subst h'
    rw [hexDigitChar, if_neg (by omega : ¬c.toNat - 55 < 10),
      show 87 + (c.toNat - 55) = c.toNat + 32 from by omega]
    unfold jsToUpperChar
    rw [if_pos (by rw [Bool.and_eq_true, decide_eq_true_eq, decide_eq_true_eq,
        charToNat_ofNat _ (by omega)]; omega),
      if_neg (by rw [Bool.and_eq_true, decide_eq_true_eq, decide_eq_true_eq]; omega),
      charToNat_ofNat _ (by omega),
      show c.toNat + 32 - 32 = c.toNat from by omega, Char.ofNat_toNat]
  · exact absurd h (by simp)

/-- C9: for every well-formed `#RRGGBB` hex color string, `hexToRgb`
succeeds and `rgbToHex` maps the result back to the uppercase normalization
of the input. -/
theorem claim_C9_hex_roundtrip (s : String) (h : wellFormedHexB s = true) :
    ∃ rgb, hexToRgb s = some rgb ∧ rgbToHex rgb = jsUpper s := by
  unfold wellFormedHexB at h
  split at h
  case h_2 => exact absurd h (by simp)
  case h_1 ds heq =>
  rw [Bool.and_eq_true, beq_iff_eq, List.all_eq_true] at h
  obtain ⟨hlen, hall⟩ := h
  match ds, hlen with
  | [c0, c1, c2, c3, c4, c5], _ =>
  have hd0 := Option.isSome_iff_exists.mp (hall c0 (by simp))
  have hd1 := Option.isSome_iff_exists.mp (hall c1 (by simp))
  have hd2 := Option.isSome_iff_exists.mp (hall c2 (by simp))
  have hd3 := Option.isSome_iff_exists.mp (hall c3 (by simp))
  have hd4 := Option.isSome_iff_exists.mp (hall c4 (by simp))
  have hd5 := Option.isSome_iff_exists.mp (hall c5 (by simp))
  obtain ⟨d0, hd0⟩ := hd0
  obtain ⟨d1, hd1⟩ := hd1
  obtain ⟨d2, hd2⟩ := hd2
  obtain ⟨d3, hd3⟩ := hd3
  obtain ⟨d4, hd4⟩ := hd4
  obtain ⟨d5, hd5⟩ := hd5
  have hl0 := hexDigitVal_lt hd0
  have hl1 := hexDigitVal_lt hd1
  have hl2 := hexDigitVal_lt hd2
  have hl3 := hexDigitVal_lt hd3
  have hl4 := hexDigitVal_lt hd4
  have hl5 := hexDigitVal_lt hd5
  have hclean : jsTrim (removeFirstHash s.data) = [c0, c1, c2, c3, c4, c5] := by
    rw [heq]
    rw [show removeFirstHash ('#' :: [c0, c1, c2, c3, c4, c5]) =
        [c0, c1, c2, c3, c4, c5] from by simp [removeFirstHash]]
    refine jsTrim_eq_self _ ?_
    intro c hc
    simp only [List.mem_cons, List.not_mem_nil, or_false] at hc
    rcases hc with rfl | rfl | rfl | rfl | rfl | rfl
    exacts [hexDigit_not_ws hd0, hexDigit_not_ws hd1, hexDigit_not_ws hd2,
      hexDigit_not_ws hd3, hexDigit_not_ws hd4, hexDigit_not_ws hd5]
  have hparse : parseHex [c0, c1, c2, c3, c4, c5] =
      some (((((d0 * 16 + d1) * 16 + d2) * 16 + d3) * 16 + d4) * 16 + d5) := by
    simp [parseHex, parseHexGo, hd0, hd1, hd2, hd3, hd4, hd5]
  have hr : (((((d0 * 16 + d1) * 16 + d2) * 16 + d3) * 16 + d4) * 16 + d5) >>> 16
      % 256 = d0 * 16 + d1 := by
    rw [Nat.shiftRight_eq_div_pow]
    omega
  have hg : (((((d0 * 16 + d1) * 16 + d2) * 16 + d3) * 16 + d4) * 16 + d5) >>> 8
      % 256 = d2 * 16 + d3 := by
    rw [Nat.shiftRight_eq_div_pow]
    omega
  have hb : (((((d0 * 16 + d1) * 16 + d2) * 16 + d3) * 16 + d4) * 16 + d5)
      % 256 = d4 * 16 + d5 := by
    omega
  refine ⟨⟨((d0 * 16 + d1 : ℕ) : ℚ), ((d2 * 16 + d3 : ℕ) : ℚ),
    ((d4 * 16 + d5 : ℕ) : ℚ)⟩, ?_, ?_⟩
  · unfold hexToRgb
    rw [hclean]
    rw [if_neg (by simp)]
    rw [hparse]
    simp only [hr, hg, hb]
  · have e0 := upper_hexDigitChar hd0
    have e1 := upper_hexDigitChar hd1
    have e2 := upper_hexDigitChar hd2
    have e3 := upper_hexDigitChar hd3
    have e4 := upper_hexDigitChar hd4
    have e5 := upper_hexDigitChar hd5
    unfold rgbToHex jsUpper
    rw [heq]
    rw [toHexComp_nat _ (by omega), toHexComp_nat _ (by omega),
      toHexComp_nat _ (by omega)]
    rw [show (d0 * 16 + d1) / 16 = d0 from by omega,
      show (d0 * 16 + d1) % 16 = d1 from by omega,
      show (d2 * 16 + d3) / 16 = d2 from by omega,
      show (d2 * 16 + d3) % 16 = d3 from by omega,
      show (d4 * 16 + d5) / 16 = d4 from by omega,
      show (d4 * 16 + d5) % 16 = d5 from by omega]
    simp only [List.cons_append, List.nil_append, List.map_cons, List.map_nil,
      e0, e1, e2, e3, e4, e5]

/-- C9 witness: the round-trip at the mixed-case input `"#aAbBcF"`. -/
theorem claim_C9_witness :
    ∃ rgb, hexToRgb "#aAbBcF" = some rgb ∧ rgbToHex rgb = jsUpper "#aAbBcF" :=
  claim_C9_hex_roundtrip "#aAbBcF" (by decide)

end TerraView
